import Mathlib

/-!
# TokenTransfer: the wallet ledger of `api.go`

A shallow embedding of the two GraphQL mutations of `api.go`, `createWallet`
and `makeTransaction`, over an explicit model of the relational store they
talk to through GORM.

Modelling decisions:

* `Wallet.Balance` and `Transaction.Amount` are `float64` in Go. All balance
  arithmetic is done by the store (`balance - ?`, `balance + ?` inside SQL
  `UPDATE`s); the Go code only compares (`amount <= 0`,
  `senderWallet.Balance < amount`). Numbers are modelled as exact rationals;
  rounding, infinities and NaN are outside the model.
* The `wallets` table is a list of rows. `Address` is the primary key, which is
  the well-formedness predicate `DB.WF` (no two rows share an address).
* Every call the code makes to the store can fail with an error of the store
  (connectivity loss and the like). A fault plan says, per call site, whether
  that call fails and with which message; the plan with no fault is `noFaults`.
* Every call to the store is recorded in a trace, so that statements such as
  "no storage access" and "rows are locked in this order" can be written down.
-/

namespace TokenTransfer

/-! ## Data model (`api.go`, lines 15-25) -/

/-- Row of the `wallets` table. -/
structure Wallet where
  Address : String
  Balance : ℚ
  deriving DecidableEq

/-- Row of the `transactions` table. -/
structure Transaction where
  TransactionID : Nat
  Sender : String
  Receiver : String
  Amount : ℚ
  deriving DecidableEq

/-- Error values the resolvers can return. -/
inductive Err where
  /-- Value of `errors.New(msg)`. -/
  | new (msg : String)
  /-- Value of `fmt.Errorf("wallet %q already exists", addr)`. -/
  | alreadyExists (addr : String)
  /-- Value `gorm.ErrRecordNotFound`. -/
  | recordNotFound
  /-- Any other error reported by the store, with its message. -/
  | storage (msg : String)
  deriving DecidableEq

/-- Text of `err.Error()`; `q` renders the `%q` verb of `fmt`. -/
def Err.message (q : String → String) : Err → String
  | Err.new m => m
  | Err.alreadyExists a => "wallet " ++ q a ++ " already exists"
  | Err.recordNotFound => "record not found"
  | Err.storage m => m

/-- State of the store: both tables and the `transaction_id` sequence. -/
structure DB where
  wallets : List Wallet
  transactions : List Transaction
  seq : Nat

/-- Primary key of `wallets`: no two rows share an address. -/
def DB.WF (db : DB) : Prop := (db.wallets.map Wallet.Address).Nodup

instance (db : DB) : Decidable db.WF := by
  unfold DB.WF; infer_instance

/-- Calls made to the store, as recorded in the trace. -/
inductive Op where
  | beginTx
  | commitTx
  | rollbackTx
  /-- Keyed read, `SELECT ... WHERE address = ?`. -/
  | findRow (addr : String)
  /-- Keyed read with `FOR UPDATE`: takes the row lock. -/
  | lockRow (addr : String)
  /-- Statement `UPDATE wallets SET balance = ... WHERE address = ?`. -/
  | updateRow (addr : String)
  | insertWallet (addr : String)
  | insertTransaction
  deriving DecidableEq

/-- A store session: the state and the calls made so far. -/
structure Sess where
  db : DB
  trace : List Op

/-! ## Store primitives -/

/-- Row selected by `First(&w, "address = ?", addr)`. -/
def firstWallet (ws : List Wallet) (addr : String) : Option Wallet :=
  ws.find? (fun w => w.Address == addr)

/-- Call `db.First(&w, "address = ?", addr)`. -/
def first (fault : Option String) (addr : String) (s : Sess) : Except Err Wallet × Sess :=
  let s1 : Sess := { s with trace := s.trace ++ [Op.findRow addr] }
  match fault with
  | some m => (Except.error (Err.storage m), s1)
  | none =>
    match firstWallet s.db.wallets addr with
    | none => (Except.error Err.recordNotFound, s1)
    | some w => (Except.ok w, s1)

/-- Call `tx.Clauses(clause.Locking{Strength: "UPDATE"}).First(&w, "address = ?", addr)`. -/
def lockFirst (fault : Option String) (addr : String) (s : Sess) : Except Err Wallet × Sess :=
  let s1 : Sess := { s with trace := s.trace ++ [Op.lockRow addr] }
  match fault with
  | some m => (Except.error (Err.storage m), s1)
  | none =>
    match firstWallet s.db.wallets addr with
    | none => (Except.error Err.recordNotFound, s1)
    | some w => (Except.ok w, s1)

/-- Rows after `UPDATE wallets SET balance = expr(balance) WHERE address = addr`. -/
def setBalance (addr : String) (expr : ℚ → ℚ) (ws : List Wallet) : List Wallet :=
  ws.map (fun w => if w.Address = addr then { w with Balance := expr w.Balance } else w)

/-- Call `tx.Model(&Wallet{}).Where("address = ?", addr).Update("balance", expr)`. -/
def updateBalance (fault : Option String) (addr : String) (expr : ℚ → ℚ) (s : Sess) :
    Option Err × Sess :=
  let tr := s.trace ++ [Op.updateRow addr]
  match fault with
  | some m => (some (Err.storage m), { s with trace := tr })
  | none =>
    (none, { db := { s.db with wallets := setBalance addr expr s.db.wallets }, trace := tr })

/-- Call `tx.Create(&resultTx)`: the store assigns `transaction_id` from its sequence. -/
def createTransaction (fault : Option String) (t : Transaction) (s : Sess) :
    Except Err Transaction × Sess :=
  let tr := s.trace ++ [Op.insertTransaction]
  match fault with
  | some m => (Except.error (Err.storage m), { s with trace := tr })
  | none =>
    let row : Transaction := { t with TransactionID := s.db.seq }
    (Except.ok row,
      { db := { s.db with transactions := s.db.transactions ++ [row], seq := s.db.seq + 1 },
        trace := tr })

/-- Message of the store on a primary-key violation. -/
def duplicateKeyMessage : String := "duplicate key value violates unique constraint"

/-- Call `db.Create(&w)` on `wallets`: refused when the address is taken. -/
def createWalletRow (fault : Option String) (w : Wallet) (s : Sess) : Option Err × Sess :=
  let tr := s.trace ++ [Op.insertWallet w.Address]
  match fault with
  | some m => (some (Err.storage m), { s with trace := tr })
  | none =>
    match firstWallet s.db.wallets w.Address with
    | some _ => (some (Err.storage duplicateKeyMessage), { s with trace := tr })
    | none => (none, { db := { s.db with wallets := s.db.wallets ++ [w] }, trace := tr })

/-- Call `db.Transaction(fn)`: begin, run `fn`, commit when it returns no error
and roll back otherwise. A rollback restores both tables; a sequence is not
transactional and keeps the values it handed out. -/
def transaction {α : Type} (faultBegin faultCommit : Option String)
    (fn : Sess → Except Err α × Sess) (s : Sess) : Except Err α × Sess :=
  let s0 : Sess := { s with trace := s.trace ++ [Op.beginTx] }
  match faultBegin with
  | some m => (Except.error (Err.storage m), s0)
  | none =>
    match fn s0 with
    | (Except.error e, s1) =>
      (Except.error e,
        { db := { wallets := s.db.wallets, transactions := s.db.transactions, seq := s1.db.seq },
          trace := s1.trace ++ [Op.rollbackTx] })
    | (Except.ok r, s1) =>
      match faultCommit with
      | some m =>
        (Except.error (Err.storage m),
          { db := { wallets := s.db.wallets, transactions := s.db.transactions, seq := s1.db.seq },
            trace := s1.trace ++ [Op.commitTx] })
      | none => (Except.ok r, { s1 with trace := s1.trace ++ [Op.commitTx] })

/-! ## `strings.Contains` -/

/-- Does `s` start with `p`? -/
def startsWith : List Char → List Char → Bool
  | _, [] => true
  | [], _ :: _ => false
  | c :: cs, p :: ps => c == p && startsWith cs ps

/-- Does `sub` occur in `s`? -/
def containsChars : List Char → List Char → Bool
  | [], sub => startsWith [] sub
  | c :: cs, sub => startsWith (c :: cs) sub || containsChars cs sub

/-- Go `strings.Contains(s, sub)`. -/
def strContains (s sub : String) : Bool := containsChars s.data sub.data

/-! ## The resolvers (`api.go`, lines 89-113 and 122-181) -/

/-- Fault plan of `createWallet`: one entry per call to the store. -/
structure CreateFaults where
  find : Option String
  create : Option String

/-- Fault plan of `makeTransaction`: one entry per call to the store. -/
structure TxFaults where
  beginTx : Option String
  lockSender : Option String
  lockReceiver : Option String
  debit : Option String
  credit : Option String
  insert : Option String
  commitTx : Option String

/-- Plan under which the store never fails. -/
def noFaults : TxFaults := ⟨none, none, none, none, none, none, none⟩

/-- Plan under which the store never fails, for `createWallet`. -/
def noCreateFaults : CreateFaults := ⟨none, none⟩

/-- Resolver of the `createWallet` mutation, on a session. -/
def createWalletSess (f : CreateFaults) (addr : String) (bal : ℚ) (s : Sess) :
    Except Err Wallet × Sess :=
  match first f.find addr s with
  | (Except.ok _, s1) => (Except.error (Err.alreadyExists addr), s1)
  | (Except.error e, s1) =>
    if e ≠ Err.recordNotFound then (Except.error e, s1)
    else
      let w : Wallet := { Address := addr, Balance := bal }
      match createWalletRow f.create w s1 with
      | (some err, s2) =>
        if strContains (err.message id) "duplicate" || strContains (err.message id) "unique" then
          (Except.error (Err.alreadyExists addr), s2)
        else (Except.error err, s2)
      | (none, s2) => (Except.ok w, s2)

/-- Function passed to `db.Transaction` by `makeTransaction`. -/
def transferBody (f : TxFaults) (sender receiver : String) (amount : ℚ) (s : Sess) :
    Except Err Transaction × Sess :=
  match lockFirst f.lockSender sender s with
  | (Except.error e, s1) =>
    if e = Err.recordNotFound then (Except.error (Err.new "wallet not in database"), s1)
    else (Except.error e, s1)
  | (Except.ok senderWallet, s1) =>
    if senderWallet.Balance < amount then (Except.error (Err.new "insufficient amount"), s1)
    else
      match lockFirst f.lockReceiver receiver s1 with
      | (Except.error e, s2) =>
        if e = Err.recordNotFound then (Except.error (Err.new "wallet not in database"), s2)
        else (Except.error e, s2)
      | (Except.ok _, s2) =>
        match updateBalance f.debit sender (fun balance => balance - amount) s2 with
        | (some e, s3) => (Except.error e, s3)
        | (none, s3) =>
          match updateBalance f.credit receiver (fun balance => balance + amount) s3 with
          | (some e, s4) => (Except.error e, s4)
          | (none, s4) =>
            createTransaction f.insert
              { TransactionID := 0, Sender := sender, Receiver := receiver, Amount := amount } s4

/-- Resolver of the `makeTransaction` mutation, on a session. -/
def makeTransactionSess (f : TxFaults) (sender receiver : String) (amount : ℚ) (s : Sess) :
    Except Err Transaction × Sess :=
  if amount ≤ 0 then (Except.error (Err.new "amount must be positive"), s)
  else transaction f.beginTx f.commitTx (transferBody f sender receiver amount) s

/-- Outcome of one call of a resolver: the value or error returned, the store
afterwards, and the calls made to the store. -/
structure Outcome (α : Type) where
  result : Except Err α
  db : DB
  trace : List Op

/-- Mutation `createWallet(address, balance)`. -/
def createWallet (db : DB) (f : CreateFaults) (addr : String) (bal : ℚ) : Outcome Wallet :=
  let r := createWalletSess f addr bal { db := db, trace := [] }
  { result := r.1, db := r.2.db, trace := r.2.trace }

/-- Mutation `makeTransaction(sender, receiver, amount)`. -/
def makeTransaction (db : DB) (f : TxFaults) (sender receiver : String) (amount : ℚ) :
    Outcome Transaction :=
  let r := makeTransactionSess f sender receiver amount { db := db, trace := [] }
  { result := r.1, db := r.2.db, trace := r.2.trace }

/-- One call of `makeTransaction`, with the fault plan of the store during it. -/
structure Call where
  faults : TxFaults
  sender : String
  receiver : String
  amount : ℚ

/-- Store after a sequence of `makeTransaction` calls, one after the other. -/
def runCalls (db : DB) : List Call → DB
  | [] => db
  | c :: cs => runCalls (makeTransaction db c.faults c.sender c.receiver c.amount).db cs

/-- Sum of all wallet balances. -/
def totalBalance (db : DB) : ℚ := (db.wallets.map Wallet.Balance).sum

/-- Balance of the wallet at `addr`, if there is one. -/
def balanceOf (db : DB) (addr : String) : Option ℚ :=
  (firstWallet db.wallets addr).map Wallet.Balance

/-- Row locked by a call to the store, if it locks one. -/
def lockedRow : Op → Option String
  | Op.lockRow a => some a
  | _ => none

/-- Row locks taken by a call, in the order they were taken. -/
def lockOrder (tr : List Op) : List String := tr.filterMap lockedRow

/-- Store of the tests: `seedWallets` in `api_test.go`. -/
def seedDB : DB :=
  { wallets := [⟨"SENDER", 10⟩, ⟨"R1", 0⟩, ⟨"R2", 0⟩, ⟨"R3", 0⟩], transactions := [], seq := 1 }

/-! ## Stores and fault plans of the concrete checks -/

/-- What a committed `makeTransaction` did to the store. -/
structure Committed (db : DB) (sender receiver : String) (amount : ℚ) (t : Transaction)
    (db1 : DB) : Prop where
  positive : 0 < amount
  senderRow : ∃ w, firstWallet db.wallets sender = some w ∧ amount ≤ w.Balance
  receiverRow : ∃ w, firstWallet db.wallets receiver = some w
  row : t = { TransactionID := db.seq, Sender := sender, Receiver := receiver, Amount := amount }
  wallets : db1.wallets = setBalance receiver (fun balance => balance + amount)
    (setBalance sender (fun balance => balance - amount) db.wallets)
  transactions : db1.transactions = db.transactions ++ [t]

/-- Fault plan of the concrete checks: the credit `UPDATE` fails, after the debit went through. -/
def creditFails : TxFaults := { noFaults with credit := some "connection reset by peer" }

/-- Calls of the conservation check: a transfer, a self-transfer, a transfer
that lacks funds, a transfer interrupted after the debit, a transfer to an
unknown wallet and a transfer of a negative amount. -/
def sampleCalls : List Call :=
  [⟨noFaults, "SENDER", "R1", 5⟩, ⟨noFaults, "R1", "R1", 2⟩, ⟨noFaults, "SENDER", "R2", 50⟩,
   ⟨creditFails, "SENDER", "R3", 1⟩, ⟨noFaults, "SENDER", "NOPE", 1⟩,
   ⟨noFaults, "R1", "SENDER", -3⟩]

/-- Store of the lock-order checks: two wallets that can both pay. -/
def pairDB : DB :=
  { wallets := [⟨"A", 10⟩, ⟨"B", 10⟩], transactions := [], seq := 1 }

/-- Store of `TestCreateWalletDuplicate`: both tables empty. -/
def emptyDB : DB := { wallets := [], transactions := [], seq := 1 }

/-! ## Lemmas on the store primitives -/

theorem lockFirst_db (fault : Option String) (addr : String) (s : Sess) :
    (lockFirst fault addr s).2.db = s.db := by
  unfold lockFirst
  cases fault with
  | some m => rfl
  | none =>
    dsimp only
    cases firstWallet s.db.wallets addr <;> rfl

theorem lockFirst_ok {fault : Option String} {addr : String} {s : Sess} {w : Wallet}
    (h : (lockFirst fault addr s).1 = Except.ok w) :
    fault = none ∧ firstWallet s.db.wallets addr = some w := by
  unfold lockFirst at h
  cases fault with
  | some m => simp at h
  | none =>
    dsimp only at h
    cases hw : firstWallet s.db.wallets addr with
    | none => rw [hw] at h; simp at h
    | some w0 => rw [hw] at h; simp at h; simp [h]

theorem transferBody_ok {f : TxFaults} {sender receiver : String} {amount : ℚ} {s : Sess}
    {t : Transaction} (h : (transferBody f sender receiver amount s).1 = Except.ok t) :
    (∃ w, firstWallet s.db.wallets sender = some w ∧ amount ≤ w.Balance) ∧
    (∃ w, firstWallet s.db.wallets receiver = some w) ∧
    t = { TransactionID := s.db.seq, Sender := sender, Receiver := receiver, Amount := amount } ∧
    (transferBody f sender receiver amount s).2.db.wallets
      = setBalance receiver (fun balance => balance + amount)
          (setBalance sender (fun balance => balance - amount) s.db.wallets) ∧
    (transferBody f sender receiver amount s).2.db.transactions = s.db.transactions ++ [t] := by
  obtain ⟨fb, fls, flr, fd, fc, fi, fcm⟩ := f
  simp only [transferBody, lockFirst, updateBalance, createTransaction] at h ⊢
  cases fls with
  | some m => simp at h
  | none =>
    cases hs : firstWallet s.db.wallets sender with
    | none => simp [hs] at h
    | some ws =>
      by_cases hb : ws.Balance < amount
      · simp [hs, hb] at h
      · cases flr with
        | some m => simp [hs, hb] at h
        | none =>
          cases hr : firstWallet s.db.wallets receiver with
          | none => simp [hs, hb, hr] at h
          | some wr =>
            cases fd with
            | some m => simp [hs, hb, hr] at h
            | none =>
              cases fc with
              | some m => simp [hs, hb, hr] at h
              | none =>
                cases fi with
                | some m => simp [hs, hb, hr] at h
                | none =>
                  simp [hs, hb, hr] at h
                  simp [hs, hb, hr]
                  refine ⟨not_lt.mp hb, h.symm, ?_⟩
                  rw [← h]

theorem transaction_error_tables {α : Type} (fb fc : Option String)
    (fn : Sess → Except Err α × Sess) (s : Sess) (e : Err)
    (h : (transaction fb fc fn s).1 = Except.error e) :
    (transaction fb fc fn s).2.db.wallets = s.db.wallets ∧
    (transaction fb fc fn s).2.db.transactions = s.db.transactions := by
  unfold transaction at h ⊢
  cases fb with
  | some m => exact ⟨rfl, rfl⟩
  | none =>
    dsimp only at h ⊢
    rcases hfn : fn { db := s.db, trace := s.trace ++ [Op.beginTx] } with ⟨r, s1⟩
    rw [hfn] at h
    cases r with
    | error e1 => exact ⟨rfl, rfl⟩
    | ok v =>
      cases fc with
      | some m => exact ⟨rfl, rfl⟩
      | none => simp at h

theorem transaction_ok {α : Type} {fb fc : Option String}
    {fn : Sess → Except Err α × Sess} {s : Sess} {v : α}
    (h : (transaction fb fc fn s).1 = Except.ok v) :
    (fn { db := s.db, trace := s.trace ++ [Op.beginTx] }).1 = Except.ok v ∧
    (transaction fb fc fn s).2.db = (fn { db := s.db, trace := s.trace ++ [Op.beginTx] }).2.db := by
  unfold transaction at h ⊢
  cases fb with
  | some m => simp at h
  | none =>
    dsimp only at h ⊢
    rcases hfn : fn { db := s.db, trace := s.trace ++ [Op.beginTx] } with ⟨r, s1⟩
    rw [hfn] at h
    cases r with
    | error e1 => simp at h
    | ok v1 =>
      cases fc with
      | some m => simp at h
      | none => simp at h; simp [h]

theorem makeTransaction_error_tables (db : DB) (f : TxFaults) (sender receiver : String)
    (amount : ℚ) (e : Err)
    (h : (makeTransaction db f sender receiver amount).result = Except.error e) :
    (makeTransaction db f sender receiver amount).db.wallets = db.wallets ∧
    (makeTransaction db f sender receiver amount).db.transactions = db.transactions := by
  simp only [makeTransaction, makeTransactionSess] at h ⊢
  by_cases ha : amount ≤ 0
  · simp [ha]
  · simp only [ha, if_false] at h ⊢
    exact transaction_error_tables _ _ _ _ e h

theorem makeTransaction_ok_committed {db : DB} {f : TxFaults} {sender receiver : String}
    {amount : ℚ} {t : Transaction}
    (h : (makeTransaction db f sender receiver amount).result = Except.ok t) :
    Committed db sender receiver amount t (makeTransaction db f sender receiver amount).db := by
  simp only [makeTransaction, makeTransactionSess] at h ⊢
  by_cases ha : amount ≤ 0
  · simp [ha] at h
  · simp only [ha, if_false] at h ⊢
    obtain ⟨hfn, hdb⟩ := transaction_ok h
    obtain ⟨hs, hr, ht, hw, hl⟩ := transferBody_ok hfn
    exact ⟨not_le.mp ha, hs, hr, ht, by rw [hdb, hw], by rw [hdb, hl]⟩

theorem makeTransaction_noFaults_ok (db : DB) (sender receiver : String) (amount : ℚ)
    (ws wr : Wallet) (ha : 0 < amount)
    (hs : firstWallet db.wallets sender = some ws) (hb : amount ≤ ws.Balance)
    (hr : firstWallet db.wallets receiver = some wr) :
    (makeTransaction db noFaults sender receiver amount).result
      = Except.ok { TransactionID := db.seq, Sender := sender, Receiver := receiver,
                    Amount := amount } := by
  simp [makeTransaction, makeTransactionSess, transaction, transferBody, lockFirst,
    updateBalance, createTransaction, noFaults, hs, hr, not_le.mpr ha, not_lt.mpr hb]

/-! ## Lemmas on the `wallets` table -/

theorem firstWallet_cons (x : Wallet) (xs : List Wallet) (a : String) :
    firstWallet (x :: xs) a = if x.Address = a then some x else firstWallet xs a := by
  by_cases h : x.Address = a
  · simp [firstWallet, List.find?_cons, h]
  · simp [firstWallet, List.find?_cons, h]

theorem setBalance_cons (a : String) (e : ℚ → ℚ) (x : Wallet) (xs : List Wallet) :
    setBalance a e (x :: xs)
      = (if x.Address = a then { x with Balance := e x.Balance } else x) :: setBalance a e xs :=
  rfl

theorem firstWallet_address {ws : List Wallet} {a : String} {w : Wallet}
    (h : firstWallet ws a = some w) : w.Address = a := by
  have := List.find?_some h
  simpa using this

theorem firstWallet_mem {ws : List Wallet} {a : String} {w : Wallet}
    (h : firstWallet ws a = some w) : w ∈ ws :=
  List.mem_of_find?_eq_some h

theorem firstWallet_eq_none {ws : List Wallet} {a : String} :
    firstWallet ws a = none ↔ a ∉ ws.map Wallet.Address := by
  unfold firstWallet
  rw [List.find?_eq_none]
  simp

theorem setBalance_addresses (a : String) (e : ℚ → ℚ) (ws : List Wallet) :
    (setBalance a e ws).map Wallet.Address = ws.map Wallet.Address := by
  unfold setBalance
  rw [List.map_map]
  apply List.map_congr_left
  intro w _
  by_cases h : w.Address = a <;> simp [h]

theorem firstWallet_setBalance_same {ws : List Wallet} {a : String} {w : Wallet} (e : ℚ → ℚ)
    (h : firstWallet ws a = some w) :
    firstWallet (setBalance a e ws) a = some { w with Balance := e w.Balance } := by
  induction ws with
  | nil => simp [firstWallet] at h
  | cons x xs ih =>
    rw [firstWallet_cons] at h
    rw [setBalance_cons, firstWallet_cons]
    by_cases hx : x.Address = a
    · simp only [hx, if_true, Option.some.injEq] at h
      subst h
      simp [hx]
    · simp only [hx, if_false] at h
      simp only [hx, if_false]
      exact ih h

theorem firstWallet_setBalance_other {a b : String} (e : ℚ → ℚ) (ws : List Wallet)
    (hab : a ≠ b) : firstWallet (setBalance b e ws) a = firstWallet ws a := by
  induction ws with
  | nil => rfl
  | cons x xs ih =>
    rw [setBalance_cons, firstWallet_cons, firstWallet_cons]
    by_cases hx : x.Address = b
    · have hxa : ¬ x.Address = a := fun h => hab (h.symm.trans hx)
      have hba : ¬ b = a := fun h => hab h.symm
      simp [hx, hxa, hba, ih]
    · simp [hx, ih]

theorem setBalance_of_not_mem {a : String} (e : ℚ → ℚ) {ws : List Wallet}
    (h : a ∉ ws.map Wallet.Address) : setBalance a e ws = ws := by
  unfold setBalance
  conv_rhs => rw [← List.map_id ws]
  apply List.map_congr_left
  intro w hw
  have : w.Address ≠ a := by
    intro hwa
    exact h (List.mem_map.mpr ⟨w, hw, hwa⟩)
  simp [this]

/-- Under the primary key, an `UPDATE` moves the sum of balances by the change of the one row. -/
theorem sum_setBalance {ws : List Wallet} {a : String} {w : Wallet} (e : ℚ → ℚ)
    (hn : (ws.map Wallet.Address).Nodup) (h : firstWallet ws a = some w) :
    ((setBalance a e ws).map Wallet.Balance).sum
      = (ws.map Wallet.Balance).sum - w.Balance + e w.Balance := by
  induction ws with
  | nil => simp [firstWallet] at h
  | cons x xs ih =>
    rw [List.map_cons, List.nodup_cons] at hn
    rw [firstWallet_cons] at h
    rw [setBalance_cons]
    by_cases hx : x.Address = a
    · simp only [hx, if_true, Option.some.injEq] at h
      have hrest : setBalance a e xs = xs := setBalance_of_not_mem e (hx ▸ hn.1)
      rw [hrest, ← h]
      simp only [hx, if_true, List.map_cons, List.sum_cons]
      ring
    · simp only [hx, if_false] at h
      simp only [hx, if_false, List.map_cons, List.sum_cons]
      rw [ih hn.2 h]
      ring

/-- Under the primary key, the row found for an address is the only row with it. -/
theorem eq_of_firstWallet {ws : List Wallet} {a : String} {w x : Wallet}
    (hn : (ws.map Wallet.Address).Nodup) (h : firstWallet ws a = some w)
    (hx : x ∈ ws) (hxa : x.Address = a) : x = w := by
  induction ws with
  | nil => simp at hx
  | cons y ys ih =>
    rw [List.map_cons, List.nodup_cons] at hn
    rw [firstWallet_cons] at h
    by_cases hy : y.Address = a
    · simp only [hy, if_true, Option.some.injEq] at h
      rcases List.mem_cons.mp hx with rfl | hmem
      · exact h
      · exact absurd (List.mem_map.mpr ⟨x, hmem, hxa.trans hy.symm⟩) hn.1
    · simp only [hy, if_false] at h
      rcases List.mem_cons.mp hx with rfl | hmem
      · exact absurd hxa hy
      · exact ih hn.2 h hmem

theorem mem_setBalance {a : String} {e : ℚ → ℚ} {ws : List Wallet} {x : Wallet}
    (hx : x ∈ setBalance a e ws) :
    (x ∈ ws ∧ x.Address ≠ a) ∨
      ∃ y ∈ ws, y.Address = a ∧ x = { y with Balance := e y.Balance } := by
  unfold setBalance at hx
  obtain ⟨y, hy, rfl⟩ := List.mem_map.mp hx
  by_cases hya : y.Address = a
  · right
    exact ⟨y, hy, hya, by simp [hya]⟩
  · left
    simp [hya, hy]

theorem setBalance_debit_credit_same (a : String) (amount : ℚ) (ws : List Wallet) :
    setBalance a (fun balance => balance + amount)
      (setBalance a (fun balance => balance - amount) ws) = ws := by
  unfold setBalance
  rw [List.map_map]
  conv_rhs => rw [← List.map_id ws]
  apply List.map_congr_left
  intro w _
  by_cases h : w.Address = a
  · subst h
    simp
  · simp [h]

/-! ## Atomicity -/

/-- C1: atomicity of `makeTransaction`. Whatever the store, the arguments and
the faults of the store, when the call returns an error (invalid amount,
unknown wallet, insufficient funds or an error of the store at any step) both
tables, wallets and transactions, are what they were before the call. -/
theorem makeTransaction_atomic (db : DB) (f : TxFaults) (sender receiver : String)
    (amount : ℚ) (e : Err)
    (h : (makeTransaction db f sender receiver amount).result = Except.error e) :
    (makeTransaction db f sender receiver amount).db.wallets = db.wallets ∧
    (makeTransaction db f sender receiver amount).db.transactions = db.transactions :=
  makeTransaction_error_tables db f sender receiver amount e h

theorem makeTransaction_creditFails :
    (makeTransaction seedDB creditFails "SENDER" "R1" 5).result
      = Except.error (Err.storage "connection reset by peer") := by
  simp [makeTransaction, makeTransactionSess, transaction, transferBody, lockFirst, firstWallet,
    updateBalance, seedDB, creditFails, noFaults]
  norm_num

/-- Inside the store transaction the debit is visible when the credit fails:
the body alone leaves `SENDER` with 5, and it is the rollback that restores 10. -/
theorem transferBody_creditFails_debited :
    balanceOf (transferBody creditFails "SENDER" "R1" 5 { db := seedDB, trace := [] }).2.db
      "SENDER" = some 5 ∧ balanceOf seedDB "SENDER" = some 10 := by
  constructor
  · simp [transferBody, lockFirst, firstWallet, updateBalance, setBalance, seedDB, creditFails,
      noFaults, balanceOf]
    norm_num
  · simp [firstWallet, seedDB, balanceOf]

/-- Witness of `makeTransaction_atomic`: the credit fails after the debit was applied. -/
theorem makeTransaction_atomic_witness :
    (makeTransaction seedDB creditFails "SENDER" "R1" 5).result
        = Except.error (Err.storage "connection reset by peer") ∧
      (makeTransaction seedDB creditFails "SENDER" "R1" 5).db.wallets = seedDB.wallets ∧
      (makeTransaction seedDB creditFails "SENDER" "R1" 5).db.transactions
        = seedDB.transactions :=
  ⟨makeTransaction_creditFails,
    makeTransaction_atomic seedDB creditFails "SENDER" "R1" 5 _ makeTransaction_creditFails⟩

/-! ## Successful transfer -/

/-- C2: success postcondition. In a store that answers every call, with sender
and receiver two distinct existing wallets and `0 < amount <= sender.balance`,
`makeTransaction` succeeds and returns the new row; the sender has its old
balance minus `amount`, the receiver its old balance plus `amount`, every other
address resolves to the row it had, no row is added or removed, and the log is
the old log followed by exactly the returned row, which carries the arguments. -/
theorem makeTransaction_success (db : DB) (sender receiver : String) (amount : ℚ)
    (ws wr : Wallet) (hne : sender ≠ receiver)
    (hs : firstWallet db.wallets sender = some ws)
    (hr : firstWallet db.wallets receiver = some wr)
    (ha : 0 < amount) (hb : amount ≤ ws.Balance) :
    (makeTransaction db noFaults sender receiver amount).result
      = Except.ok { TransactionID := db.seq, Sender := sender, Receiver := receiver,
                    Amount := amount } ∧
    balanceOf (makeTransaction db noFaults sender receiver amount).db sender
      = some (ws.Balance - amount) ∧
    balanceOf (makeTransaction db noFaults sender receiver amount).db receiver
      = some (wr.Balance + amount) ∧
    (∀ a, a ≠ sender → a ≠ receiver →
      firstWallet (makeTransaction db noFaults sender receiver amount).db.wallets a
        = firstWallet db.wallets a) ∧
    (makeTransaction db noFaults sender receiver amount).db.wallets.map Wallet.Address
      = db.wallets.map Wallet.Address ∧
    (makeTransaction db noFaults sender receiver amount).db.transactions
      = db.transactions ++ [{ TransactionID := db.seq, Sender := sender, Receiver := receiver,
                              Amount := amount }] := by
  have hok := makeTransaction_noFaults_ok db sender receiver amount ws wr ha hs hb hr
  have hc := makeTransaction_ok_committed hok
  refine ⟨hok, ?_, ?_, ?_, ?_, hc.transactions⟩
  · unfold balanceOf
    rw [hc.wallets, firstWallet_setBalance_other _ _ hne,
      firstWallet_setBalance_same _ hs]
    rfl
  · unfold balanceOf
    have h1 : firstWallet (setBalance sender (fun balance => balance - amount) db.wallets)
        receiver = some wr := by
      rw [firstWallet_setBalance_other _ _ (Ne.symm hne)]; exact hr
    rw [hc.wallets, firstWallet_setBalance_same _ h1]
    rfl
  · intro a has har
    rw [hc.wallets, firstWallet_setBalance_other _ _ har, firstWallet_setBalance_other _ _ has]
  · rw [hc.wallets, setBalance_addresses, setBalance_addresses]

/-- Witness of `makeTransaction_success`: the scenario of `TestTransferSuccess`. -/
theorem makeTransaction_success_witness :
    balanceOf (makeTransaction seedDB noFaults "SENDER" "R1" 5).db "SENDER" = some 5 ∧
      balanceOf (makeTransaction seedDB noFaults "SENDER" "R1" 5).db "R1" = some 5 ∧
      (makeTransaction seedDB noFaults "SENDER" "R1" 5).db.transactions
        = [{ TransactionID := 1, Sender := "SENDER", Receiver := "R1", Amount := 5 }] := by
  have h := makeTransaction_success seedDB "SENDER" "R1" 5 ⟨"SENDER", 10⟩ ⟨"R1", 0⟩
    (by decide) (by simp [firstWallet, seedDB]) (by simp [firstWallet, seedDB])
    (by norm_num) (by norm_num)
  refine ⟨?_, ?_, ?_⟩
  · rw [h.2.1]; norm_num
  · rw [h.2.2.1]; norm_num
  · rw [h.2.2.2.2.2]; rfl

/-! ## Conservation -/

theorem makeTransaction_WF (db : DB) (f : TxFaults) (sender receiver : String) (amount : ℚ)
    (hwf : db.WF) : (makeTransaction db f sender receiver amount).db.WF := by
  unfold DB.WF at hwf ⊢
  rcases hres : (makeTransaction db f sender receiver amount).result with e | t
  · rw [(makeTransaction_error_tables db f sender receiver amount e hres).1]
    exact hwf
  · rw [(makeTransaction_ok_committed hres).wallets, setBalance_addresses, setBalance_addresses]
    exact hwf

theorem makeTransaction_totalBalance (db : DB) (f : TxFaults) (sender receiver : String)
    (amount : ℚ) (hwf : db.WF) :
    totalBalance (makeTransaction db f sender receiver amount).db = totalBalance db := by
  unfold totalBalance
  rcases hres : (makeTransaction db f sender receiver amount).result with e | t
  · rw [(makeTransaction_error_tables db f sender receiver amount e hres).1]
  · have hc := makeTransaction_ok_committed hres
    obtain ⟨ws, hs, _⟩ := hc.senderRow
    obtain ⟨wr, hr⟩ := hc.receiverRow
    have hn1 : ((setBalance sender (fun balance => balance - amount) db.wallets).map
        Wallet.Address).Nodup := by
      rw [setBalance_addresses]; exact hwf
    rw [hc.wallets]
    by_cases hne : sender = receiver
    · subst hne
      rw [setBalance_debit_credit_same]
    · have hr1 : firstWallet (setBalance sender (fun balance => balance - amount) db.wallets)
          receiver = some wr := by
        rw [firstWallet_setBalance_other _ _ (Ne.symm hne)]; exact hr
      rw [sum_setBalance _ hn1 hr1, sum_setBalance _ hwf hs]
      ring

theorem runCalls_WF (cs : List Call) : ∀ db : DB, db.WF → (runCalls db cs).WF := by
  induction cs with
  | nil => intro db h; exact h
  | cons c cs ih =>
    intro db h
    exact ih _ (makeTransaction_WF db c.faults c.sender c.receiver c.amount h)

/-- C3: conservation. From any store that respects the primary key of
`wallets`, after any finite sequence of `makeTransaction` calls (successful or
failed, with any faults of the store, sender and receiver equal or not) the sum
of all wallet balances, as exact numbers, is what it was before the sequence. -/
theorem runCalls_totalBalance (db : DB) (hwf : db.WF) (cs : List Call) :
    totalBalance (runCalls db cs) = totalBalance db := by
  induction cs generalizing db with
  | nil => rfl
  | cons c cs ih =>
    have h1 := makeTransaction_WF db c.faults c.sender c.receiver c.amount hwf
    have h2 := makeTransaction_totalBalance db c.faults c.sender c.receiver c.amount hwf
    show totalBalance (runCalls (makeTransaction db c.faults c.sender c.receiver c.amount).db cs)
      = totalBalance db
    rw [ih _ h1, h2]

/-- Witness of `runCalls_totalBalance` on the store of the tests. -/
theorem runCalls_totalBalance_witness :
    seedDB.WF ∧ totalBalance (runCalls seedDB sampleCalls) = totalBalance seedDB :=
  ⟨by decide, runCalls_totalBalance seedDB (by decide) sampleCalls⟩

/-! ## Non-negative balances -/

/-- C4: non-negativity is preserved. From any store that respects the primary
key of `wallets` and whose balances are all `>= 0`, whatever the arguments and
the faults of the store, after `makeTransaction` returns (value or error) every
balance is still `>= 0`, and the sender, if it has a wallet, still has one, with
a balance not greater than before. -/
theorem makeTransaction_nonneg (db : DB) (f : TxFaults) (sender receiver : String)
    (amount : ℚ) (hwf : db.WF) (hnn : ∀ w ∈ db.wallets, 0 ≤ w.Balance) :
    (∀ w ∈ (makeTransaction db f sender receiver amount).db.wallets, 0 ≤ w.Balance) ∧
    (∀ b, balanceOf db sender = some b →
      ∃ b1, balanceOf (makeTransaction db f sender receiver amount).db sender = some b1 ∧
        b1 ≤ b) := by
  rcases hres : (makeTransaction db f sender receiver amount).result with e | t
  · rw [(makeTransaction_error_tables db f sender receiver amount e hres).1]
    refine ⟨hnn, fun b hb => ⟨b, ?_, le_refl b⟩⟩
    unfold balanceOf at hb ⊢
    rw [(makeTransaction_error_tables db f sender receiver amount e hres).1]
    exact hb
  · have hc := makeTransaction_ok_committed hres
    obtain ⟨ws, hs, hle⟩ := hc.senderRow
    have hpos := hc.positive
    have hdebit : ∀ y ∈ setBalance sender (fun balance => balance - amount) db.wallets,
        0 ≤ y.Balance := by
      intro y hy
      rcases mem_setBalance hy with ⟨hmem, _⟩ | ⟨z, hz, hza, rfl⟩
      · exact hnn y hmem
      · have hzw : z = ws := eq_of_firstWallet hwf hs hz hza
        subst hzw
        show 0 ≤ z.Balance - amount
        linarith
    constructor
    · intro x hx
      rw [hc.wallets] at hx
      rcases mem_setBalance hx with ⟨hmem, _⟩ | ⟨y, hy, _, rfl⟩
      · exact hdebit x hmem
      · have := hdebit y hy
        show 0 ≤ y.Balance + amount
        linarith
    · intro b hb
      have hbw : b = ws.Balance := by
        unfold balanceOf at hb
        rw [hs] at hb
        simpa using hb.symm
      unfold balanceOf
      rw [hc.wallets]
      by_cases hne : sender = receiver
      · subst hne
        rw [setBalance_debit_credit_same, hs]
        exact ⟨ws.Balance, rfl, by rw [hbw]⟩
      · rw [firstWallet_setBalance_other _ _ hne, firstWallet_setBalance_same _ hs]
        refine ⟨ws.Balance - amount, rfl, ?_⟩
        rw [hbw]
        linarith

/-- Witness of `makeTransaction_nonneg`: a transfer of the sender's whole balance. -/
theorem makeTransaction_nonneg_witness :
    seedDB.WF ∧ (∀ w ∈ seedDB.wallets, 0 ≤ w.Balance) ∧
      (∀ w ∈ (makeTransaction seedDB noFaults "SENDER" "R1" 10).db.wallets, 0 ≤ w.Balance) ∧
      (∀ b, balanceOf seedDB "SENDER" = some b →
        ∃ b1, balanceOf (makeTransaction seedDB noFaults "SENDER" "R1" 10).db "SENDER" = some b1 ∧
          b1 ≤ b) :=
  have hnn : ∀ w ∈ seedDB.wallets, 0 ≤ w.Balance := by
    intro w hw
    simp only [seedDB, List.mem_cons, List.mem_singleton, List.not_mem_nil, or_false] at hw
    rcases hw with rfl | rfl | rfl | rfl <;> norm_num
  ⟨by decide, hnn, makeTransaction_nonneg seedDB noFaults "SENDER" "R1" 10 (by decide) hnn⟩

/-! ## Rejections -/

/-- C6: insufficient funds. In a store that answers every call, when the
sender exists, `amount > 0` and the sender's balance is below `amount`,
`makeTransaction` fails with the error whose message is exactly
`insufficient amount`; both tables are unchanged, so the sender keeps its
balance and the number of transactions is the same. This holds whether or not
the receiver exists, and in particular when it does. -/
theorem makeTransaction_insufficient (db : DB) (sender receiver : String) (amount : ℚ)
    (ws : Wallet) (hs : firstWallet db.wallets sender = some ws)
    (ha : 0 < amount) (hb : ws.Balance < amount) :
    (makeTransaction db noFaults sender receiver amount).result
      = Except.error (Err.new "insufficient amount") ∧
    balanceOf (makeTransaction db noFaults sender receiver amount).db sender
      = some ws.Balance ∧
    (makeTransaction db noFaults sender receiver amount).db.wallets = db.wallets ∧
    (makeTransaction db noFaults sender receiver amount).db.transactions.length
      = db.transactions.length := by
  have hres : (makeTransaction db noFaults sender receiver amount).result
      = Except.error (Err.new "insufficient amount") := by
    simp [makeTransaction, makeTransactionSess, transaction, transferBody, lockFirst,
      noFaults, hs, not_le.mpr ha, hb]
  obtain ⟨hw, ht⟩ := makeTransaction_error_tables db noFaults sender receiver amount _ hres
  refine ⟨hres, ?_, hw, by rw [ht]⟩
  unfold balanceOf
  rw [hw, hs]
  rfl

/-- Witness of `makeTransaction_insufficient`: `TestTransferInsufficientBalance`. -/
theorem makeTransaction_insufficient_witness :
    firstWallet seedDB.wallets "R1" = some ⟨"R1", 0⟩ ∧
      (makeTransaction seedDB noFaults "SENDER" "R1" 50).result
        = Except.error (Err.new "insufficient amount") ∧
      balanceOf (makeTransaction seedDB noFaults "SENDER" "R1" 50).db "SENDER" = some 10 ∧
      (makeTransaction seedDB noFaults "SENDER" "R1" 50).db.transactions.length = 0 := by
  have h := makeTransaction_insufficient seedDB "SENDER" "R1" 50 ⟨"SENDER", 10⟩
    (by simp [firstWallet, seedDB]) (by norm_num) (by norm_num)
  exact ⟨by simp [firstWallet, seedDB], h.1, h.2.1, h.2.2.2⟩

theorem transferBody_error_kinds {f : TxFaults} {sender receiver : String} {amount : ℚ}
    {s : Sess} {e : Err} (h : (transferBody f sender receiver amount s).1 = Except.error e) :
    e = Err.new "wallet not in database" ∨ e = Err.new "insufficient amount" ∨
      ∃ m, e = Err.storage m := by
  obtain ⟨fb, fls, flr, fd, fc, fi, fcm⟩ := f
  simp only [transferBody, lockFirst, updateBalance, createTransaction] at h
  cases fls with
  | some m => simp at h; exact Or.inr (Or.inr ⟨m, h.symm⟩)
  | none =>
    cases hs : firstWallet s.db.wallets sender with
    | none => simp [hs] at h; exact Or.inl h.symm
    | some ws =>
      by_cases hb : ws.Balance < amount
      · simp [hs, hb] at h; exact Or.inr (Or.inl h.symm)
      · cases flr with
        | some m => simp [hs, hb] at h; exact Or.inr (Or.inr ⟨m, h.symm⟩)
        | none =>
          cases hr : firstWallet s.db.wallets receiver with
          | none => simp [hs, hb, hr] at h; exact Or.inl h.symm
          | some wr =>
            cases fd with
            | some m => simp [hs, hb, hr] at h; exact Or.inr (Or.inr ⟨m, h.symm⟩)
            | none =>
              cases fc with
              | some m => simp [hs, hb, hr] at h; exact Or.inr (Or.inr ⟨m, h.symm⟩)
              | none =>
                cases fi with
                | some m => simp [hs, hb, hr] at h; exact Or.inr (Or.inr ⟨m, h.symm⟩)
                | none => simp [hs, hb, hr] at h

theorem transaction_error_kinds {α : Type} {fb fc : Option String}
    {fn : Sess → Except Err α × Sess} {s : Sess} {e : Err}
    (h : (transaction fb fc fn s).1 = Except.error e) :
    (∃ m, e = Err.storage m) ∨
      (fn { db := s.db, trace := s.trace ++ [Op.beginTx] }).1 = Except.error e := by
  unfold transaction at h
  cases fb with
  | some m => simp at h; exact Or.inl ⟨m, h.symm⟩
  | none =>
    dsimp only at h
    rcases hfn : fn { db := s.db, trace := s.trace ++ [Op.beginTx] } with ⟨r, s1⟩
    rw [hfn] at h
    cases r with
    | error e1 => simp at h; right; simp [h]
    | ok v =>
      cases fc with
      | some m => simp at h; exact Or.inl ⟨m, h.symm⟩
      | none => simp at h

/-- C7: invalid amount. Whatever the store, its faults, the sender and the
receiver (existing or not): when `amount <= 0`, `makeTransaction` fails with the
error whose message is exactly `amount must be positive`, makes no call to the
store at all (nothing is read, locked, updated or inserted) and leaves the store
as it was; and when `amount > 0` it never returns that error. -/
theorem makeTransaction_invalidAmount (db : DB) (f : TxFaults) (sender receiver : String)
    (amount : ℚ) :
    (amount ≤ 0 →
      (makeTransaction db f sender receiver amount).result
          = Except.error (Err.new "amount must be positive") ∧
        (makeTransaction db f sender receiver amount).trace = [] ∧
        (makeTransaction db f sender receiver amount).db = db) ∧
    (0 < amount →
      (makeTransaction db f sender receiver amount).result
        ≠ Except.error (Err.new "amount must be positive")) := by
  constructor
  · intro ha
    simp [makeTransaction, makeTransactionSess, ha]
  · intro ha h
    simp only [makeTransaction, makeTransactionSess, not_le.mpr ha, if_false] at h
    rcases transaction_error_kinds h with ⟨m, hm⟩ | hbody
    · exact Err.noConfusion hm
    · rcases transferBody_error_kinds hbody with h1 | h1 | ⟨m, hm⟩
      · exact absurd h1 (by decide)
      · exact absurd h1 (by decide)
      · exact Err.noConfusion hm

/-- Witness of `makeTransaction_invalidAmount`: `TestMakeTransactionNegativeAmount`,
and a positive amount on a store whose credit update fails. -/
theorem makeTransaction_invalidAmount_witness :
    ((makeTransaction seedDB noFaults "SENDER" "R1" (-5)).result
          = Except.error (Err.new "amount must be positive") ∧
        (makeTransaction seedDB noFaults "SENDER" "R1" (-5)).trace = [] ∧
        (makeTransaction seedDB noFaults "SENDER" "R1" (-5)).db = seedDB) ∧
      (makeTransaction seedDB creditFails "SENDER" "R1" 5).result
        ≠ Except.error (Err.new "amount must be positive") :=
  ⟨(makeTransaction_invalidAmount seedDB noFaults "SENDER" "R1" (-5)).1 (by norm_num),
    (makeTransaction_invalidAmount seedDB creditFails "SENDER" "R1" 5).2 (by norm_num)⟩

/-- C5, the claim as written fails: in the store of the tests the receiver
`NOPE` has no wallet and the amount is positive, yet a transfer of 50 from
`SENDER`, who holds 10, is refused for lack of funds and not for the unknown
wallet, because the funds check comes before the receiver is looked up. -/
theorem makeTransaction_unknownReceiver_lowFunds :
    (0 : ℚ) < 50 ∧ firstWallet seedDB.wallets "NOPE" = none ∧
      (makeTransaction seedDB noFaults "SENDER" "NOPE" 50).result
        = Except.error (Err.new "insufficient amount") ∧
      (makeTransaction seedDB noFaults "SENDER" "NOPE" 50).result
        ≠ Except.error (Err.new "wallet not in database") := by
  have h : (makeTransaction seedDB noFaults "SENDER" "NOPE" 50).result
      = Except.error (Err.new "insufficient amount") := by
    simp [makeTransaction, makeTransactionSess, transaction, transferBody, lockFirst,
      firstWallet, seedDB, noFaults]
    norm_num
  refine ⟨by norm_num, by simp [firstWallet, seedDB], h, ?_⟩
  rw [h]
  simp

/-- C5, amended: unknown account. In a store that answers every call and for
`amount > 0`: when the sender has no wallet, or when the sender has one that
holds at least `amount` and the receiver has none, `makeTransaction` fails with
the error whose message is `wallet not in database`; when the sender has a
wallet that holds less than `amount`, it fails with `insufficient amount`
whether or not the receiver exists, the funds check coming before the receiver
lookup. In all three cases both tables are unchanged: no transaction is created. -/
theorem makeTransaction_unknownAccount (db : DB) (sender receiver : String) (amount : ℚ)
    (ha : 0 < amount) :
    (firstWallet db.wallets sender = none →
      (makeTransaction db noFaults sender receiver amount).result
        = Except.error (Err.new "wallet not in database")) ∧
    (∀ ws, firstWallet db.wallets sender = some ws → amount ≤ ws.Balance →
      firstWallet db.wallets receiver = none →
      (makeTransaction db noFaults sender receiver amount).result
        = Except.error (Err.new "wallet not in database")) ∧
    (∀ ws, firstWallet db.wallets sender = some ws → ws.Balance < amount →
      (makeTransaction db noFaults sender receiver amount).result
        = Except.error (Err.new "insufficient amount")) ∧
    ((firstWallet db.wallets sender = none ∨ firstWallet db.wallets receiver = none ∨
        ∃ ws, firstWallet db.wallets sender = some ws ∧ ws.Balance < amount) →
      (makeTransaction db noFaults sender receiver amount).db.wallets = db.wallets ∧
      (makeTransaction db noFaults sender receiver amount).db.transactions
        = db.transactions) := by
  refine ⟨?_, ?_, ?_, ?_⟩
  · intro hs
    simp [makeTransaction, makeTransactionSess, transaction, transferBody, lockFirst,
      noFaults, hs, not_le.mpr ha]
  · intro ws hs hb hr
    simp [makeTransaction, makeTransactionSess, transaction, transferBody, lockFirst,
      noFaults, hs, hr, not_le.mpr ha, not_lt.mpr hb]
  · intro ws hs hb
    simp [makeTransaction, makeTransactionSess, transaction, transferBody, lockFirst,
      noFaults, hs, not_le.mpr ha, hb]
  · intro h
    rcases hres : (makeTransaction db noFaults sender receiver amount).result with e | t
    · exact makeTransaction_error_tables db noFaults sender receiver amount e hres
    · have hc := makeTransaction_ok_committed hres
      obtain ⟨ws, hs, hle⟩ := hc.senderRow
      obtain ⟨wr, hr⟩ := hc.receiverRow
      rcases h with h | h | ⟨w1, h1, hlt⟩
      · rw [hs] at h; simp at h
      · rw [hr] at h; simp at h
      · rw [hs] at h1
        simp only [Option.some.injEq] at h1
        subst h1
        exact absurd hle (not_le.mpr hlt)

/-- Witness of `makeTransaction_unknownAccount`: `TestMakeTransactionReceiverNotFound`. -/
theorem makeTransaction_unknownAccount_witness :
    (makeTransaction seedDB noFaults "SENDER" "NOPE" 5).result
        = Except.error (Err.new "wallet not in database") ∧
      (makeTransaction seedDB noFaults "SENDER" "NOPE" 5).db.wallets = seedDB.wallets ∧
      (makeTransaction seedDB noFaults "SENDER" "NOPE" 5).db.transactions
        = seedDB.transactions :=
  ⟨(makeTransaction_unknownAccount seedDB "SENDER" "NOPE" 5 (by norm_num)).2.1 ⟨"SENDER", 10⟩
      (by simp [firstWallet, seedDB]) (by norm_num) (by simp [firstWallet, seedDB]),
    (makeTransaction_unknownAccount seedDB "SENDER" "NOPE" 5 (by norm_num)).2.2.2
      (Or.inr (Or.inl (by simp [firstWallet, seedDB])))⟩

/-! ## Self-transfer -/

/-- C9: self-transfer. In a store that answers every call, for a wallet `a`
and `0 < amount <= a.balance`, `makeTransaction(a, a, amount)` has the one
outcome computed here: it succeeds, the debit and the credit on the row of `a`
cancel so that every wallet row is exactly what it was before the call, and
one transaction from `a` to `a` is appended to the log. -/
theorem makeTransaction_self (db : DB) (a : String) (amount : ℚ) (w : Wallet)
    (hs : firstWallet db.wallets a = some w) (ha : 0 < amount) (hb : amount ≤ w.Balance) :
    (makeTransaction db noFaults a a amount).result
      = Except.ok { TransactionID := db.seq, Sender := a, Receiver := a, Amount := amount } ∧
    (makeTransaction db noFaults a a amount).db.wallets = db.wallets ∧
    (makeTransaction db noFaults a a amount).db.transactions
      = db.transactions ++ [{ TransactionID := db.seq, Sender := a, Receiver := a,
                              Amount := amount }] := by
  have hok := makeTransaction_noFaults_ok db a a amount w w ha hs hb hs
  have hc := makeTransaction_ok_committed hok
  refine ⟨hok, ?_, hc.transactions⟩
  rw [hc.wallets, setBalance_debit_credit_same]

/-- Witness of `makeTransaction_self`: `SENDER` sends 4 of its 10 to itself. -/
theorem makeTransaction_self_witness :
    (makeTransaction seedDB noFaults "SENDER" "SENDER" 4).result
        = Except.ok { TransactionID := 1, Sender := "SENDER", Receiver := "SENDER", Amount := 4 } ∧
      (makeTransaction seedDB noFaults "SENDER" "SENDER" 4).db.wallets = seedDB.wallets :=
  have h := makeTransaction_self seedDB "SENDER" 4 ⟨"SENDER", 10⟩
    (by simp [firstWallet, seedDB]) (by norm_num) (by norm_num)
  ⟨h.1, h.2.1⟩

/-! ## Order of the row locks -/

theorem transferBody_lockOrder (f : TxFaults) (sender receiver : String) (amount : ℚ)
    (s : Sess) :
    lockOrder (transferBody f sender receiver amount s).2.trace = lockOrder s.trace ++ [sender] ∨
    lockOrder (transferBody f sender receiver amount s).2.trace
      = lockOrder s.trace ++ [sender, receiver] := by
  obtain ⟨fb, fls, flr, fd, fc, fi, fcm⟩ := f
  simp only [transferBody, lockFirst, updateBalance, createTransaction]
  cases fls with
  | some m => simp [lockOrder, lockedRow, List.filterMap_append]
  | none =>
    cases hs : firstWallet s.db.wallets sender with
    | none => simp [hs, lockOrder, lockedRow, List.filterMap_append]
    | some ws =>
      by_cases hb : ws.Balance < amount
      · simp [hs, hb, lockOrder, lockedRow, List.filterMap_append]
      · cases flr with
        | some m => simp [hs, hb, lockOrder, lockedRow, List.filterMap_append]
        | none =>
          cases hr : firstWallet s.db.wallets receiver with
          | none => simp [hs, hr, hb, lockOrder, lockedRow, List.filterMap_append]
          | some wr =>
            cases fd with
            | some m => simp [hs, hr, hb, lockOrder, lockedRow, List.filterMap_append]
            | none =>
              cases fc with
              | some m => simp [hs, hr, hb, lockOrder, lockedRow, List.filterMap_append]
              | none =>
                cases fi with
                | some m => simp [hs, hr, hb, lockOrder, lockedRow, List.filterMap_append]
                | none => simp [hs, hr, hb, lockOrder, lockedRow, List.filterMap_append]

theorem transaction_lockOrder {α : Type} (fb fc : Option String)
    (fn : Sess → Except Err α × Sess) (s : Sess) :
    lockOrder (transaction fb fc fn s).2.trace = lockOrder s.trace ∨
    lockOrder (transaction fb fc fn s).2.trace
      = lockOrder (fn { db := s.db, trace := s.trace ++ [Op.beginTx] }).2.trace := by
  unfold transaction
  cases fb with
  | some m => left; simp [lockOrder, lockedRow, List.filterMap_append]
  | none =>
    right
    dsimp only
    rcases hfn : fn { db := s.db, trace := s.trace ++ [Op.beginTx] } with ⟨r, s1⟩
    cases r with
    | error e1 => simp [lockOrder, lockedRow, List.filterMap_append]
    | ok v =>
      cases fc with
      | some m => simp [lockOrder, lockedRow, List.filterMap_append]
      | none => simp [lockOrder, lockedRow, List.filterMap_append]

theorem makeTransaction_noFaults_lockOrder (db : DB) (sender receiver : String) (amount : ℚ)
    (ws wr : Wallet) (hs : firstWallet db.wallets sender = some ws)
    (hr : firstWallet db.wallets receiver = some wr) (ha : 0 < amount)
    (hb : amount ≤ ws.Balance) :
    lockOrder (makeTransaction db noFaults sender receiver amount).trace
      = [sender, receiver] := by
  simp [makeTransaction, makeTransactionSess, transaction, transferBody, lockFirst,
    updateBalance, createTransaction, noFaults, lockOrder, lockedRow, hs, hr, not_le.mpr ha,
    not_lt.mpr hb]

/-- C10, the claim as written fails: `A` and `B` are distinct wallets of the
store, both transfers succeed and take both row locks, and
`makeTransaction(A, B, 1)` locks `A` then `B` while `makeTransaction(B, A, 1)`
locks `B` then `A`: the two calls do not lock the rows in the same order. -/
theorem makeTransaction_lockOrder_opposite :
    lockOrder (makeTransaction pairDB noFaults "A" "B" 1).trace = ["A", "B"] ∧
      lockOrder (makeTransaction pairDB noFaults "B" "A" 1).trace = ["B", "A"] ∧
      lockOrder (makeTransaction pairDB noFaults "A" "B" 1).trace
        ≠ lockOrder (makeTransaction pairDB noFaults "B" "A" 1).trace := by
  have h1 : lockOrder (makeTransaction pairDB noFaults "A" "B" 1).trace = ["A", "B"] :=
    makeTransaction_noFaults_lockOrder pairDB "A" "B" 1 ⟨"A", 10⟩ ⟨"B", 10⟩
      (by simp [firstWallet, pairDB]) (by simp [firstWallet, pairDB]) (by norm_num)
      (by norm_num)
  have h2 : lockOrder (makeTransaction pairDB noFaults "B" "A" 1).trace = ["B", "A"] :=
    makeTransaction_noFaults_lockOrder pairDB "B" "A" 1 ⟨"B", 10⟩ ⟨"A", 10⟩
      (by simp [firstWallet, pairDB]) (by simp [firstWallet, pairDB]) (by norm_num)
      (by norm_num)
  refine ⟨h1, h2, ?_⟩
  rw [h1, h2]
  decide

/-- C10, amended: lock order. Whatever the store, its faults and the arguments,
the row locks taken by one `makeTransaction` call are none, the sender's alone,
or the sender's followed by the receiver's: a call that takes both row locks
takes them in call-argument order, sender first and receiver second. In a store
that answers every call, with both wallets present and enough funds, both locks
are taken, so `makeTransaction(A, B, x)` locks `A` then `B`. -/
theorem makeTransaction_lockOrder (db : DB) (f : TxFaults) (sender receiver : String)
    (amount : ℚ) :
    (lockOrder (makeTransaction db f sender receiver amount).trace = [] ∨
      lockOrder (makeTransaction db f sender receiver amount).trace = [sender] ∨
      lockOrder (makeTransaction db f sender receiver amount).trace = [sender, receiver]) ∧
    (∀ ws wr, f = noFaults → firstWallet db.wallets sender = some ws →
      firstWallet db.wallets receiver = some wr → 0 < amount → amount ≤ ws.Balance →
      lockOrder (makeTransaction db f sender receiver amount).trace = [sender, receiver]) := by
  constructor
  · simp only [makeTransaction, makeTransactionSess]
    by_cases ha : amount ≤ 0
    · left
      simp [ha, lockOrder]
    · simp only [ha, if_false]
      rcases transaction_lockOrder f.beginTx f.commitTx (transferBody f sender receiver amount)
        { db := db, trace := [] } with h | h
      · left
        rw [h]; rfl
      · right
        rw [h]
        rcases transferBody_lockOrder f sender receiver amount
          { db := db, trace := [] ++ [Op.beginTx] } with h1 | h1
        · left; rw [h1]; rfl
        · right; rw [h1]; rfl
  · intro ws wr hf hs hr ha hb
    subst hf
    exact makeTransaction_noFaults_lockOrder db sender receiver amount ws wr hs hr ha hb

/-- Witness of `makeTransaction_lockOrder`: both directions between `A` and `B`. -/
theorem makeTransaction_lockOrder_witness :
    lockOrder (makeTransaction pairDB noFaults "A" "B" 3).trace = ["A", "B"] ∧
      lockOrder (makeTransaction pairDB noFaults "B" "A" 7).trace = ["B", "A"] :=
  ⟨(makeTransaction_lockOrder pairDB noFaults "A" "B" 3).2 ⟨"A", 10⟩ ⟨"B", 10⟩ rfl
      (by simp [firstWallet, pairDB]) (by simp [firstWallet, pairDB]) (by norm_num)
      (by norm_num),
    (makeTransaction_lockOrder pairDB noFaults "B" "A" 7).2 ⟨"B", 10⟩ ⟨"A", 10⟩ rfl
      (by simp [firstWallet, pairDB]) (by simp [firstWallet, pairDB]) (by norm_num)
      (by norm_num)⟩

/-! ## Account creation -/

theorem startsWith_append (p ys : List Char) : startsWith (p ++ ys) p = true := by
  induction p with
  | nil => cases ys <;> rfl
  | cons c cs ih => simp [startsWith, ih]

theorem containsChars_of_startsWith {s sub : List Char} (h : startsWith s sub = true) :
    containsChars s sub = true := by
  cases s with
  | nil => simpa [containsChars] using h
  | cons c cs => simp [containsChars, h]

theorem containsChars_append (xs sub ys : List Char) :
    containsChars (xs ++ (sub ++ ys)) sub = true := by
  induction xs with
  | nil => exact containsChars_of_startsWith (startsWith_append sub ys)
  | cons c cs ih =>
    show containsChars (c :: (cs ++ (sub ++ ys))) sub = true
    simp [containsChars, ih]

theorem alreadyExists_message (q : String → String) (a : String) :
    strContains ((Err.alreadyExists a).message q) "already exists" = true := by
  have h : ((Err.alreadyExists a).message q).data
      = ("wallet ".data ++ (q a).data ++ " ".data) ++ ("already exists".data ++ []) := by
    simp [Err.message, String.data_append]
  unfold strContains
  rw [h]
  exact containsChars_append _ _ _

theorem firstWallet_append_new {ws : List Wallet} {a : String} (b : ℚ)
    (h : firstWallet ws a = none) :
    firstWallet (ws ++ [⟨a, b⟩]) a = some ⟨a, b⟩ := by
  unfold firstWallet at h ⊢
  rw [List.find?_append, h]
  simp

theorem createWallet_fresh (db : DB) (a : String) (b : ℚ)
    (h : firstWallet db.wallets a = none) :
    (createWallet db noCreateFaults a b).result = Except.ok ⟨a, b⟩ ∧
    (createWallet db noCreateFaults a b).db.wallets = db.wallets ++ [⟨a, b⟩] ∧
    (createWallet db noCreateFaults a b).db.transactions = db.transactions := by
  simp [createWallet, createWalletSess, first, createWalletRow, noCreateFaults, h]

theorem createWallet_taken (db : DB) (a : String) (b : ℚ) (w : Wallet)
    (h : firstWallet db.wallets a = some w) :
    (createWallet db noCreateFaults a b).result = Except.error (Err.alreadyExists a) ∧
    (createWallet db noCreateFaults a b).db.wallets = db.wallets ∧
    (createWallet db noCreateFaults a b).db.transactions = db.transactions := by
  simp [createWallet, createWalletSess, first, noCreateFaults, h]

/-- The primary key is an invariant of `createWallet`, whatever the faults of the store. -/
theorem createWallet_WF (db : DB) (f : CreateFaults) (a : String) (b : ℚ) (hwf : db.WF) :
    (createWallet db f a b).db.WF := by
  obtain ⟨ff, fc⟩ := f
  unfold DB.WF at hwf ⊢
  simp only [createWallet, createWalletSess, first, createWalletRow]
  cases ff with
  | some m => simpa using hwf
  | none =>
    cases hfind : firstWallet db.wallets a with
    | some w => simpa using hwf
    | none =>
      cases fc with
      | some m =>
        by_cases hm : strContains m "duplicate" = true ∨ strContains m "unique" = true
        · simpa [hfind, Err.message, hm] using hwf
        · simpa [hfind, Err.message, hm] using hwf
      | none =>
        simp only [hfind, ne_eq, not_true_eq_false, if_false]
        rw [List.map_append, List.nodup_append]
        refine ⟨hwf, List.nodup_singleton a, ?_⟩
        intro x hx hxa
        have hxa1 : x = a := by simpa using hxa
        subst hxa1
        exact firstWallet_eq_none.mp hfind hx

/-- C8: duplicate rejection in `createWallet`. In a store that answers every
call and has no wallet at address `a`, for any balances `b1` and `b2`:
`createWallet(a, b1)` succeeds and returns the wallet `(a, b1)`; a following
`createWallet(a, b2)` fails with the account-exists error, whose message
contains `already exists`; afterwards the rows with address `a` are exactly the
one row `(a, b1)`, and the second call changed neither the wallets nor the
transaction log. -/
theorem createWallet_duplicate (db : DB) (a : String) (b1 b2 : ℚ) (q : String → String)
    (h : firstWallet db.wallets a = none) :
    (createWallet db noCreateFaults a b1).result = Except.ok ⟨a, b1⟩ ∧
    (createWallet (createWallet db noCreateFaults a b1).db noCreateFaults a b2).result
      = Except.error (Err.alreadyExists a) ∧
    strContains ((Err.alreadyExists a).message q) "already exists" = true ∧
    (createWallet (createWallet db noCreateFaults a b1).db noCreateFaults a b2).db.wallets.filter
      (fun w => w.Address == a) = [⟨a, b1⟩] ∧
    (createWallet (createWallet db noCreateFaults a b1).db noCreateFaults a b2).db.wallets
      = (createWallet db noCreateFaults a b1).db.wallets ∧
    (createWallet (createWallet db noCreateFaults a b1).db noCreateFaults a b2).db.transactions
      = (createWallet db noCreateFaults a b1).db.transactions := by
  obtain ⟨h1, h2, _⟩ := createWallet_fresh db a b1 h
  have hfound : firstWallet (createWallet db noCreateFaults a b1).db.wallets a
      = some ⟨a, b1⟩ := by
    rw [h2]; exact firstWallet_append_new b1 h
  obtain ⟨h4, h5, h6⟩ := createWallet_taken (createWallet db noCreateFaults a b1).db a b2 _ hfound
  refine ⟨h1, h4, alreadyExists_message q a, ?_, h5, h6⟩
  rw [h5, h2, List.filter_append]
  have hnone : db.wallets.filter (fun w => w.Address == a) = [] := by
    rw [List.filter_eq_nil_iff]
    intro w hw hwa
    have hmem : a ∈ db.wallets.map Wallet.Address :=
      List.mem_map.mpr ⟨w, hw, by simpa using hwa⟩
    exact firstWallet_eq_none.mp h hmem
  rw [hnone]
  simp

/-- Witness of `createWallet_duplicate`: `TestCreateWalletDuplicate`. -/
theorem createWallet_duplicate_witness :
    (createWallet emptyDB noCreateFaults "DUP" 50).result = Except.ok ⟨"DUP", 50⟩ ∧
      (createWallet (createWallet emptyDB noCreateFaults "DUP" 50).db noCreateFaults "DUP"
        50).result = Except.error (Err.alreadyExists "DUP") :=
  have h := createWallet_duplicate emptyDB "DUP" 50 50 id (by simp [firstWallet, emptyDB])
  ⟨h.1, h.2.1⟩

end TokenTransfer
